import Mathlib

/-!
Verification of the real-time change-notification subsystem of the
notes application (`src/main.py` plus the `broadcaster` collaborator).

The first part embeds the data model and the HTTP mutation handlers of
`src/main.py` as pure Lean functions: the SQLite-backed store becomes an
association list from primary key to row plus an autoincrement counter,
a handler becomes a function from store and request payload to the
post-handler store, the handler's outcome (returned value or raised
exception), and a trace of the externally visible steps it performs
(commit, broadcast call, response).

The second part models the `WebSocketBroadcaster` collaborator
(connection registry, broadcast fan-out, wire encoding); its source is
not part of `src/`, so those definitions are written from the
specification's description of the component, as marked on each.
-/

namespace Notes

/-- The `action` tag of a change event: `"create"`, `"update"` or `"delete"`. -/
inductive Action where
  | create
  | update
  | delete
deriving DecidableEq, Repr

/-- The `Note` table model of `src/main.py`: `id` is the optional primary key
(`None` until the row is committed), `title` and `description` are optional
text, `done` is a boolean defaulting to `False`. -/
structure Note where
  id : Option Nat
  title : Option String
  description : Option String
  done : Bool
deriving DecidableEq, Repr

/-- The `NoteCreate` request model: only `title` and `description`. -/
structure NoteCreate where
  title : Option String
  description : Option String
deriving DecidableEq, Repr

/-- The `NoteUpdate` request body as received by `update_note`. Because the
handler applies `payload.model_dump(exclude_unset=True)`, each field carries
whether it was explicitly set in the request (`some v`) or left unset
(`none`). -/
structure NoteUpdatePayload where
  title : Option (Option String)
  description : Option (Option String)
  done : Option Bool
deriving DecidableEq, Repr

/-- `db_note.sqlmodel_update(payload.model_dump(exclude_unset=True))`:
overwrite exactly the fields that were set in the payload. -/
def Note.sqlmodel_update (n : Note) (p : NoteUpdatePayload) : Note :=
  { n with
    title := p.title.getD n.title
    description := p.description.getD n.description
    done := p.done.getD n.done }

/-- The SQLite store behind `engine`: committed rows keyed by primary key,
plus the autoincrement counter that assigns the next primary key. -/
structure Store where
  notes : List (Nat × Note)
  nextId : Nat
deriving DecidableEq, Repr

/-- `session.get(Note, note_id)`. -/
def Store.get (s : Store) (note_id : Nat) : Option Note :=
  s.notes.lookup note_id

/-- `Note.model_validate(note)` for a `NoteCreate` body: the table defaults
fill in `id = None` and `done = False`. -/
def Note.model_validate (nc : NoteCreate) : Note :=
  { id := none, title := nc.title, description := nc.description, done := false }

/-- The exceptions the embedded handlers can raise. `main.py` never imports
`fastapi.HTTPException`, so evaluating `raise HTTPException(...)` in
`update_note` / `delete_note` actually raises a `NameError` for the unbound
name `HTTPException`; likewise `notes_page` evaluates the unbound name
`notes`. A failure inside `broadcast` propagates as `broadcastError`. -/
inductive PyError where
  | nameErrorHTTPException
  | nameErrorNotes
  | broadcastError
  | httpError (status : Nat)
deriving DecidableEq, Repr

/-- The externally visible steps a mutation handler performs, in program
order: the database commit, the `await websocket_broadcaster.broadcast(...)`
call with its arguments, and the return of the HTTP response. -/
inductive Step where
  | commit
  | broadcastCall (a : Action) (n : Note)
  | respond
deriving DecidableEq, Repr

/-- The broadcast calls of a handler trace, with their arguments. -/
def broadcastsOf (t : List Step) : List (Action × Note) :=
  t.filterMap fun s =>
    match s with
    | .broadcastCall a n => some (a, n)
    | _ => none

/-- Outcome of one handler invocation: the post-handler store, the HTTP-level
result (returned note or raised exception), and the step trace. The
`broadcastOk` flag tells whether the awaited `broadcast` call returns
normally (`true`) or raises (`false`); the handler itself does not catch
that exception, so on `false` it propagates before the return statement. -/
structure HandlerRun where
  store : Store
  result : Except PyError Note
  trace : List Step
deriving Repr

/-- `POST /api/notes` (`create_note` in `src/main.py`): validate the body into
a row, `session.add` + `session.commit` assigns the next autoincrement key
and makes the row durable, `session.refresh` reloads the committed row, then
`broadcast(action="create", note=db_note)`, then return the note. -/
def create_note (s : Store) (note : NoteCreate) (broadcastOk : Bool) : HandlerRun :=
  let db_note := Note.model_validate note
  let committed : Note := { db_note with id := some s.nextId }
  let s' : Store := { notes := s.notes ++ [(s.nextId, committed)], nextId := s.nextId + 1 }
  if broadcastOk then
    { store := s'
      result := .ok committed
      trace := [.commit, .broadcastCall .create committed, .respond] }
  else
    { store := s'
      result := .error .broadcastError
      trace := [.commit, .broadcastCall .create committed] }

/-- `PATCH /api/notes/{note_id}` (`update_note`): fetch the row; if absent,
`raise HTTPException(...)` (which, `HTTPException` being unbound, raises a
`NameError`) before any mutation; otherwise apply the set fields, commit,
refresh, `broadcast(action="update", note=db_note)`, and return the note. -/
def update_note (s : Store) (note_id : Nat) (payload : NoteUpdatePayload)
    (broadcastOk : Bool) : HandlerRun :=
  match s.get note_id with
  | none => { store := s, result := .error .nameErrorHTTPException, trace := [] }
  | some db_note =>
    let updated := db_note.sqlmodel_update payload
    let s' : Store :=
      { s with notes := s.notes.map fun p => if p.1 = note_id then (note_id, updated) else p }
    if broadcastOk then
      { store := s'
        result := .ok updated
        trace := [.commit, .broadcastCall .update updated, .respond] }
    else
      { store := s'
        result := .error .broadcastError
        trace := [.commit, .broadcastCall .update updated] }

/-- `DELETE /api/notes/{note_id}` (`delete_note`): fetch the row; if absent,
raise before any mutation; otherwise `session.delete` + `session.commit`,
then `broadcast(action="delete", note=db_note)` with the deleted row's
snapshot, and return it. -/
def delete_note (s : Store) (note_id : Nat) (broadcastOk : Bool) : HandlerRun :=
  match s.get note_id with
  | none => { store := s, result := .error .nameErrorHTTPException, trace := [] }
  | some db_note =>
    let s' : Store := { s with notes := s.notes.filter fun p => p.1 ≠ note_id }
    if broadcastOk then
      { store := s'
        result := .ok db_note
        trace := [.commit, .broadcastCall .delete db_note, .respond] }
    else
      { store := s'
        result := .error .broadcastError
        trace := [.commit, .broadcastCall .delete db_note] }

/-- `GET /api/notes` (`get_notes`): all rows. -/
def get_notes (s : Store) : List Note :=
  s.notes.map Prod.snd

/-- The synchronous `requests.get(base_url + "/api/notes")` issued by
`notes_page`: the API endpoint always succeeds, so the response status is
200 and the body is the note list. -/
def api_get_notes (s : Store) : Nat × List Note :=
  (200, get_notes s)

/-- What `notes_page` hands to the template, when rendering succeeds. -/
structure RenderedPage where
  version : String
  notes : List Note
deriving DecidableEq, Repr

/-- `GET /front/notes` (`notes_page`): fetch the note list through the API,
raise on a non-2xx status, then build the template context
`{"version": VERSION, "notes": notes}`. The name `notes` is unbound in the
function (the fetched `response` is never used for it), so evaluating the
context raises a `NameError`. -/
def notes_page (s : Store) : Except PyError RenderedPage :=
  let response := api_get_notes s
  if 200 ≤ response.1 ∧ response.1 < 300 then
    .error .nameErrorNotes
  else
    .error (.httpError response.1)

/-! The `WebSocketBroadcaster` collaborator. Its source file (`broadcaster`)
is imported by `src/main.py` but is not part of `src/`, so the definitions
below are modelled from the specification. -/

/-- Modelled from the spec: the Connection Registry (§3, §4.1) of the absent
`broadcaster` module — the set of currently subscribed connections, keyed by
connection identity (here a natural number), insertion order irrelevant. -/
abbrev Registry := List Nat

/-- Modelled from the spec (§4.1): `register(connection)` adds a connection
to the set; no-op if already present; always succeeds for a valid open
connection. -/
def register (r : Registry) (c : Nat) : Registry :=
  if c ∈ r then r else r ++ [c]

/-- Modelled from the spec (§4.1): `unregister(connection)` removes a
connection from the set if present; removing an absent connection is a
silent no-op, never an error. -/
def unregister (r : Registry) (c : Nat) : Registry :=
  r.filter fun x => x ≠ c

/-- Modelled from the spec (§4.1): `snapshot()` returns the current members
as an independent point-in-time copy. -/
def snapshot (r : Registry) : List Nat := r

/-- Modelled from the spec (§6): the record carried by a Change Event —
`id` integer, `title`/`description` optional text, `done` boolean. -/
structure NoteSnapshot where
  id : Int
  title : Option String
  description : Option String
  done : Bool
deriving DecidableEq, Repr

/-- Modelled from the spec (§3): a Change Event — an `action` tag and the
full record snapshot, immutable once constructed. -/
structure ChangeEvent where
  action : Action
  record : NoteSnapshot
deriving DecidableEq, Repr

/-- A structured, self-describing wire value: the JSON-like payload sent to
each subscriber. -/
inductive Json where
  | null
  | bool (b : Bool)
  | int (n : Int)
  | str (s : String)
  | obj (fields : List (String × Json))

/-- Field lookup in a wire object. -/
def Json.getField (j : Json) (k : String) : Option Json :=
  match j with
  | .obj fields => fields.lookup k
  | _ => none

/-- The wire string of an action tag. -/
def Action.toWire : Action → String
  | .create => "create"
  | .update => "update"
  | .delete => "delete"

/-- Decode an action tag from its wire string. -/
def Action.ofWire (s : String) : Option Action :=
  if s = "create" then some .create
  else if s = "update" then some .update
  else if s = "delete" then some .delete
  else none

/-- Optional text encodes absent as the null marker (§6), so `none` and
`some ""` have distinct encodings. -/
def encodeOptText : Option String → Json
  | none => .null
  | some t => .str t

/-- Decode an optional-text field. -/
def decodeOptText : Json → Option (Option String)
  | .null => some none
  | .str t => some (some t)
  | _ => none

/-- Modelled from the spec (§6): the wire encoding of a Change Event —
`\x7baction: string, note: \x7bid, title, description, done\x7d\x7d`. -/
def encodeEvent (e : ChangeEvent) : Json :=
  .obj [("action", .str e.action.toWire),
        ("note", .obj [("id", .int e.record.id),
                       ("title", encodeOptText e.record.title),
                       ("description", encodeOptText e.record.description),
                       ("done", .bool e.record.done)])]

/-- Modelled from the spec (§6, §8): decoding a wire payload back into a
Change Event; fails on any missing or ill-typed field. -/
def decodeEvent (j : Json) : Option ChangeEvent :=
  match j.getField "action", j.getField "note" with
  | some (.str a), some noteObj =>
    match Action.ofWire a, noteObj.getField "id", noteObj.getField "title",
        noteObj.getField "description", noteObj.getField "done" with
    | some act, some (.int i), some tj, some dj, some (.bool dn) =>
      match decodeOptText tj, decodeOptText dj with
      | some t, some d =>
        some { action := act, record := { id := i, title := t, description := d, done := dn } }
      | _, _ => none
    | _, _, _, _, _ => none
  | _, _ => none

/-- Outcome of one `broadcast` call: every delivery attempt made (connection
identity paired with the payload handed to it) and the registry after the
batch eviction of failed connections. -/
structure BroadcastOutcome where
  sent : List (Nat × Json)
  registry : Registry

/-- Modelled from the spec (§4.2, §7, design note 3): `broadcast(action,
record)` of the absent `broadcaster` module — construct the Change Event,
serialize it, take a snapshot of the registry, attempt delivery to every
connection in the snapshot (attempts are independent; which ones fail is
given by the `fails` oracle standing for transport failures), and evict
exactly the failed connections as a batch within the same call. Transport
failures surface no error to the caller. -/
def broadcast (r : Registry) (a : Action) (rec : NoteSnapshot)
    (fails : Nat → Bool) : Except String BroadcastOutcome :=
  let payload := encodeEvent { action := a, record := rec }
  let snap := snapshot r
  let attempts := snap.map fun c => (c, payload)
  let failed := snap.filter fun c => fails c
  .ok { sent := attempts, registry := failed.foldl unregister r }

/-- Modelled from the spec (§4.2): one registry-affecting operation —
`connect` registers a connection, `disconnect` unregisters it, and a
broadcast call may evict the connections whose delivery attempt failed. -/
inductive Op where
  | connect (c : Nat)
  | disconnect (c : Nat)
  | broadcastTo (a : Action) (rec : NoteSnapshot) (fails : Nat → Bool)

/-- The registry after one operation. -/
def stepOp (r : Registry) : Op → Registry
  | .connect c => register r c
  | .disconnect c => unregister r c
  | .broadcastTo a rec fails =>
    match broadcast r a rec fails with
    | .ok out => out.registry
    | .error _ => r

/-- The registry after a sequence of operations starting from `r`. -/
def runOps (ops : List Op) (r : Registry) : Registry :=
  ops.foldl stepOp r

/-! Helper lemmas shared by the claim theorems. -/

/-- A successful association-list lookup exhibits a matching row. -/
theorem lookup_mem {l : List (Nat × Note)} {k : Nat} {v : Note}
    (h : l.lookup k = some v) : (k, v) ∈ l := by
  induction l with
  | nil => simp [List.lookup] at h
  | cons hd tl ih =>
    obtain ⟨k', v'⟩ := hd
    by_cases hk : k = k'
    · subst hk
      simp [List.lookup_cons] at h
      simp [h]
    · rw [List.lookup_cons] at h
      simp [beq_false_of_ne hk] at h
      exact List.mem_cons_of_mem _ (ih h)

/-- Membership after `register`. -/
theorem mem_register {r : Registry} {x c : Nat} :
    x ∈ register r c ↔ x ∈ r ∨ x = c := by
  unfold register
  split
  · next h => constructor
              · exact fun hx => Or.inl hx
              · rintro (hx | rfl)
                · exact hx
                · exact h
  · simp

/-- Membership after `unregister`. -/
theorem mem_unregister {r : Registry} {x c : Nat} :
    x ∈ unregister r c ↔ x ∈ r ∧ x ≠ c := by
  simp [unregister]

/-- `register` preserves freedom from duplicates. -/
theorem nodup_register {r : Registry} (c : Nat) (h : r.Nodup) :
    (register r c).Nodup := by
  unfold register
  split
  · exact h
  · next hc => simp [List.nodup_append, h, hc]

/-- `unregister` preserves freedom from duplicates. -/
theorem nodup_unregister {r : Registry} (c : Nat) (h : r.Nodup) :
    (unregister r c).Nodup :=
  h.filter _

/-- Membership after batch eviction of a list of connections. -/
theorem mem_foldl_unregister (l : List Nat) (r : Registry) (x : Nat) :
    x ∈ l.foldl unregister r ↔ x ∈ r ∧ x ∉ l := by
  induction l generalizing r with
  | nil => simp
  | cons c l ih =>
    rw [List.foldl_cons, ih, mem_unregister]
    constructor
    · rintro ⟨⟨hr, hne⟩, hl⟩
      exact ⟨hr, by simp [hne, hl]⟩
    · rintro ⟨hr, hcl⟩
      simp at hcl
      exact ⟨⟨hr, hcl.1⟩, hcl.2⟩

/-- Batch eviction preserves freedom from duplicates. -/
theorem nodup_foldl_unregister (l : List Nat) (r : Registry) (h : r.Nodup) :
    (l.foldl unregister r).Nodup := by
  induction l generalizing r with
  | nil => exact h
  | cons c l ih => exact ih _ (nodup_unregister c h)

/-- Every operation preserves freedom from duplicates. -/
theorem nodup_stepOp (r : Registry) (op : Op) (h : r.Nodup) :
    (stepOp r op).Nodup := by
  cases op with
  | connect c => exact nodup_register c h
  | disconnect c => exact nodup_unregister c h
  | broadcastTo a rec fails => exact nodup_foldl_unregister _ _ h

/-- An operation only ever adds the connection it registers. -/
theorem mem_stepOp {r : Registry} {op : Op} {x : Nat} (h : x ∈ stepOp r op) :
    x ∈ r ∨ op = Op.connect x := by
  cases op with
  | connect c =>
    rcases mem_register.mp h with hx | rfl
    · exact Or.inl hx
    · exact Or.inr rfl
  | disconnect c => exact Or.inl (mem_unregister.mp h).1
  | broadcastTo a rec fails =>
    exact Or.inl ((mem_foldl_unregister _ _ _).mp h).1

/-- Running a sequence of operations preserves freedom from duplicates. -/
theorem nodup_runOps (ops : List Op) (r : Registry) (h : r.Nodup) :
    (runOps ops r).Nodup := by
  induction ops generalizing r with
  | nil => exact h
  | cons op ops ih => exact ih _ (nodup_stepOp r op h)

/-- A connection absent from the registry stays absent as long as it is not
re-registered. -/
theorem not_mem_runOps (ops : List Op) (r : Registry) (x : Nat)
    (hr : x ∉ r) (hops : Op.connect x ∉ ops) : x ∉ runOps ops r := by
  induction ops generalizing r with
  | nil => exact hr
  | cons op ops ih =>
    have hhd : op ≠ Op.connect x := fun h => hops (h ▸ List.mem_cons_self _ _)
    refine ih (stepOp r op) ?_ (fun h => hops (List.mem_cons_of_mem _ h))
    intro hmem
    rcases mem_stepOp hmem with h | h
    · exact hr h
    · exact hhd h

/-- Splitting a run of operations. -/
theorem runOps_append (l₁ l₂ : List Op) (r : Registry) :
    runOps (l₁ ++ l₂) r = runOps l₂ (runOps l₁ r) :=
  List.foldl_append _ _ _ _

/-! Concrete data for the witness theorems. -/

/-- A sample committed note. -/
def exNote : Note :=
  { id := some 1, title := some "Devoirs", description := some "TP Backend", done := false }

/-- A sample one-row store whose next autoincrement key is 2. -/
def exStore : Store :=
  { notes := [(1, exNote)], nextId := 2 }

/-- A sample update payload that sets only the `done` field. -/
def exPayload : NoteUpdatePayload :=
  { title := none, description := none, done := some true }

/-- A sample creation body. -/
def exCreate : NoteCreate :=
  { title := some "Papiers", description := some "Nouveau Passeport" }

/-- A sample wire record. -/
def exRec : NoteSnapshot :=
  { id := 1, title := some "Devoirs", description := some "TP Backend", done := false }

/-! Trace-shape helper lemmas for the mutation handlers. -/

/-- The step trace of `create_note`: commit, then the broadcast call with the
committed row, then (when broadcast returns normally) the response. -/
theorem create_note_trace (s : Store) (nc : NoteCreate) (b : Bool) :
    (create_note s nc b).trace =
      [Step.commit,
       Step.broadcastCall .create
         { id := some s.nextId, title := nc.title,
           description := nc.description, done := false }] ++
      (if b then [Step.respond] else []) := by
  cases b <;> rfl

/-- The step trace of `update_note` on a present row. -/
theorem update_note_trace (s : Store) (nid : Nat) (p : NoteUpdatePayload)
    (b : Bool) (n₀ : Note) (h : s.get nid = some n₀) :
    (update_note s nid p b).trace =
      [Step.commit, Step.broadcastCall .update (n₀.sqlmodel_update p)] ++
      (if b then [Step.respond] else []) := by
  cases b <;> simp [update_note, h]

/-- The step trace of `delete_note` on a present row. -/
theorem delete_note_trace (s : Store) (nid : Nat) (b : Bool) (n₀ : Note)
    (h : s.get nid = some n₀) :
    (delete_note s nid b).trace =
      [Step.commit, Step.broadcastCall .delete n₀] ++
      (if b then [Step.respond] else []) := by
  cases b <;> simp [delete_note, h]

/-- The updated row is in the post-handler store of `update_note`. -/
theorem update_note_store_mem (s : Store) (nid : Nat) (p : NoteUpdatePayload)
    (b : Bool) (n₀ : Note) (h : s.get nid = some n₀) :
    (nid, n₀.sqlmodel_update p) ∈ (update_note s nid p b).store.notes := by
  have hm := lookup_mem h
  have hmap := List.mem_map_of_mem
    (fun q : Nat × Note => if q.1 = nid then (nid, n₀.sqlmodel_update p) else q) hm
  simp only [if_pos rfl] at hmap
  cases b <;> simpa [update_note, h] using hmap

/-! The claim theorems. -/

/-- C5: the claim says `notes_page` obtains the note list through a
synchronous HTTP call back into the API and renders the template from that
fetched response. The handler does issue the API call (embedded as
`api_get_notes`), but the template context is built from the unbound name
`notes`, never from the fetched response, so every request raises a
`NameError` instead of rendering the fetched note list — the bug the spec
itself flags. -/
theorem notes_page_raises_name_error (s : Store) :
    notes_page s = .error .nameErrorNotes := rfl

/-- C6: no failure raised during or after the `broadcast` call rolls back
the committed mutation — the post-handler store of each mutation handler is
the same whether the awaited `broadcast` call returns normally or raises. -/
theorem store_independent_of_broadcast_outcome (s : Store) (nc : NoteCreate)
    (nid : Nat) (p : NoteUpdatePayload) (b₁ b₂ : Bool) :
    (create_note s nc b₁).store = (create_note s nc b₂).store ∧
    (update_note s nid p b₁).store = (update_note s nid p b₂).store ∧
    (delete_note s nid b₁).store = (delete_note s nid b₂).store := by
  refine ⟨?_, ?_, ?_⟩
  · cases b₁ <;> cases b₂ <;> rfl
  · cases h : s.get nid <;> cases b₁ <;> cases b₂ <;> simp [update_note, h]
  · cases h : s.get nid <;> cases b₁ <;> cases b₂ <;> simp [delete_note, h]

/-- C7: decoding the wire encoding of any Change Event reproduces the
original action tag and every record field exactly; in particular absent
text (encoded as the null marker) and empty text round-trip distinctly. -/
theorem wire_roundtrip (e : ChangeEvent) :
    decodeEvent (encodeEvent e) = some e := by
  obtain ⟨a, i, t, d, dn⟩ := e
  cases a <;> rcases t with _ | t <;> rcases d with _ | d <;> rfl

/-- C8: `register` is a no-op when the connection is already present (and,
being a total function, never errors), and `unregister` is idempotent —
removing an absent connection leaves the registry unchanged and raises no
error. -/
theorem register_noop_unregister_idempotent (r : Registry) (c : Nat) :
    (c ∈ r → register r c = r) ∧
    (c ∉ r → unregister r c = r) ∧
    unregister (unregister r c) c = unregister r c := by
  refine ⟨fun h => by simp [register, h], fun h => ?_, ?_⟩
  · unfold unregister
    refine List.filter_eq_self.mpr fun x hx => ?_
    simp
    rintro rfl
    exact h hx
  · simp [unregister, List.filter_filter]

/-- C8 witness: concrete registry. -/
theorem register_noop_unregister_idempotent_witness :
    register [1, 2] 1 = [1, 2] ∧ unregister [1, 2] 5 = [1, 2] :=
  ⟨(register_noop_unregister_idempotent [1, 2] 1).1 (by decide),
   (register_noop_unregister_idempotent [1, 2] 5).2.1 (by decide)⟩

/-- C9: on a `note_id` absent from the store, `update_note` and
`delete_note` raise (the `raise HTTPException(...)` line, whose name
`HTTPException` is unbound, so a `NameError`) before any store mutation and
before any broadcast call: the store is unchanged, the result is an error,
and no Change Event is emitted. -/
theorem not_found_fails_before_mutation (s : Store) (nid : Nat)
    (p : NoteUpdatePayload) (b : Bool) (h : s.get nid = none) :
    (update_note s nid p b).store = s ∧
    (update_note s nid p b).result = .error .nameErrorHTTPException ∧
    broadcastsOf (update_note s nid p b).trace = [] ∧
    (delete_note s nid b).store = s ∧
    (delete_note s nid b).result = .error .nameErrorHTTPException ∧
    broadcastsOf (delete_note s nid b).trace = [] := by
  simp [update_note, delete_note, h, broadcastsOf]

/-- C9 witness: a store holding only note 1, queried at the absent id 7. -/
theorem not_found_fails_before_mutation_witness :
    (update_note exStore 7 exPayload true).store = exStore ∧
    (update_note exStore 7 exPayload true).result = .error .nameErrorHTTPException ∧
    broadcastsOf (update_note exStore 7 exPayload true).trace = [] ∧
    (delete_note exStore 7 true).store = exStore ∧
    (delete_note exStore 7 true).result = .error .nameErrorHTTPException ∧
    broadcastsOf (delete_note exStore 7 true).trace = [] :=
  not_found_fails_before_mutation exStore 7 exPayload true (by decide)

/-- C1: every successful create, update or delete calls `broadcast` exactly
once, after the commit, with the matching action tag and the post-mutation
snapshot of the affected note (for create and update the broadcast note is a
row of the post-handler store at the affected key; for delete it is the row
that was just removed); a failed mutation (absent `note_id`) never calls
`broadcast`. -/
theorem broadcast_once_per_successful_mutation (s : Store) (nc : NoteCreate)
    (nid : Nat) (p : NoteUpdatePayload) (b : Bool) :
    (broadcastsOf (create_note s nc b).trace =
        [(.create, { id := some s.nextId, title := nc.title,
                     description := nc.description, done := false })] ∧
      (s.nextId, ({ id := some s.nextId, title := nc.title,
                    description := nc.description, done := false } : Note)) ∈
        (create_note s nc b).store.notes ∧
      [Step.commit, Step.broadcastCall .create
          { id := some s.nextId, title := nc.title,
            description := nc.description, done := false }].Sublist
        (create_note s nc b).trace) ∧
    (∀ n₀, s.get nid = some n₀ →
      broadcastsOf (update_note s nid p b).trace =
          [(.update, n₀.sqlmodel_update p)] ∧
        (nid, n₀.sqlmodel_update p) ∈ (update_note s nid p b).store.notes ∧
        [Step.commit, Step.broadcastCall .update (n₀.sqlmodel_update p)].Sublist
          (update_note s nid p b).trace) ∧
    (s.get nid = none → broadcastsOf (update_note s nid p b).trace = []) ∧
    (∀ n₀, s.get nid = some n₀ →
      broadcastsOf (delete_note s nid b).trace = [(.delete, n₀)] ∧
        [Step.commit, Step.broadcastCall .delete n₀].Sublist
          (delete_note s nid b).trace) ∧
    (s.get nid = none → broadcastsOf (delete_note s nid b).trace = []) := by
  refine ⟨⟨?_, ?_, ?_⟩, fun n₀ h => ⟨?_, ?_, ?_⟩, fun h => ?_,
    fun n₀ h => ⟨?_, ?_⟩, fun h => ?_⟩
  · rw [create_note_trace]; cases b <;> rfl
  · cases b <;> simp [create_note, Note.model_validate]
  · rw [create_note_trace]; exact List.sublist_append_left _ _
  · rw [update_note_trace s nid p b n₀ h]; cases b <;> rfl
  · exact update_note_store_mem s nid p b n₀ h
  · rw [update_note_trace s nid p b n₀ h]; exact List.sublist_append_left _ _
  · simp [update_note, h, broadcastsOf]
  · rw [delete_note_trace s nid b n₀ h]; cases b <;> rfl
  · rw [delete_note_trace s nid b n₀ h]; exact List.sublist_append_left _ _
  · simp [delete_note, h, broadcastsOf]

/-- C1 witness: the one-row store, exercising create, a present update and
delete (id 1), and an absent update and delete (id 7). -/
theorem broadcast_once_per_successful_mutation_witness :
    (broadcastsOf (create_note exStore exCreate true).trace =
        [(.create, { id := some exStore.nextId, title := exCreate.title,
                     description := exCreate.description, done := false })] ∧
      (exStore.nextId, ({ id := some exStore.nextId, title := exCreate.title,
                          description := exCreate.description, done := false } : Note)) ∈
        (create_note exStore exCreate true).store.notes ∧
      [Step.commit, Step.broadcastCall .create
          { id := some exStore.nextId, title := exCreate.title,
            description := exCreate.description, done := false }].Sublist
        (create_note exStore exCreate true).trace) ∧
    (broadcastsOf (update_note exStore 1 exPayload true).trace =
        [(.update, exNote.sqlmodel_update exPayload)] ∧
      (1, exNote.sqlmodel_update exPayload) ∈
        (update_note exStore 1 exPayload true).store.notes ∧
      [Step.commit, Step.broadcastCall .update (exNote.sqlmodel_update exPayload)].Sublist
        (update_note exStore 1 exPayload true).trace) ∧
    broadcastsOf (update_note exStore 7 exPayload true).trace = [] ∧
    (broadcastsOf (delete_note exStore 1 true).trace = [(.delete, exNote)] ∧
      [Step.commit, Step.broadcastCall .delete exNote].Sublist
        (delete_note exStore 1 true).trace) ∧
    broadcastsOf (delete_note exStore 7 true).trace = [] := by
  have h1 := broadcast_once_per_successful_mutation exStore exCreate 1 exPayload true
  have h7 := broadcast_once_per_successful_mutation exStore exCreate 7 exPayload true
  exact ⟨h1.1, h1.2.1 exNote rfl, h7.2.2.1 rfl, h1.2.2.2.1 exNote rfl, h7.2.2.2.2 rfl⟩

/-- C4: in every mutation handler the broadcast call happens strictly after
the commit, and the HTTP response (emitted only when the handler reaches its
return statement, i.e. when broadcast returned normally) is strictly the
last step — so broadcast is invoked after the mutation is durable and before
the response is returned. -/
theorem broadcast_after_commit_before_response (s : Store) (nc : NoteCreate)
    (nid : Nat) (p : NoteUpdatePayload) (b : Bool) :
    ((create_note s nc b).trace =
        [Step.commit,
         Step.broadcastCall .create
           { id := some s.nextId, title := nc.title,
             description := nc.description, done := false }] ++
        (if b then [Step.respond] else [])) ∧
    (∀ n₀, s.get nid = some n₀ →
      (update_note s nid p b).trace =
        [Step.commit, Step.broadcastCall .update (n₀.sqlmodel_update p)] ++
        (if b then [Step.respond] else [])) ∧
    (∀ n₀, s.get nid = some n₀ →
      (delete_note s nid b).trace =
        [Step.commit, Step.broadcastCall .delete n₀] ++
        (if b then [Step.respond] else [])) :=
  ⟨create_note_trace s nc b,
   fun n₀ h => update_note_trace s nid p b n₀ h,
   fun n₀ h => delete_note_trace s nid b n₀ h⟩

/-- C4 witness: concrete traces on the one-row store. -/
theorem broadcast_after_commit_before_response_witness :
    (create_note exStore exCreate true).trace =
      [Step.commit,
       Step.broadcastCall .create
         { id := some exStore.nextId, title := exCreate.title,
           description := exCreate.description, done := false },
       Step.respond] ∧
    (update_note exStore 1 exPayload true).trace =
      [Step.commit, Step.broadcastCall .update (exNote.sqlmodel_update exPayload),
       Step.respond] ∧
    (delete_note exStore 1 true).trace =
      [Step.commit, Step.broadcastCall .delete exNote, Step.respond] := by
  have h := broadcast_after_commit_before_response exStore exCreate 1 exPayload true
  exact ⟨by simpa using h.1, by simpa using h.2.1 exNote rfl,
         by simpa using h.2.2 exNote rfl⟩

/-- C2: a `broadcast` call surfaces no error to its caller; every connection
in the registry snapshot taken at call start gets a delivery attempt with
the serialized event, regardless of which other attempts fail; every
connection whose attempt fails is unregistered within the same call; and
only those are — a connection whose attempt succeeds stays registered. -/
theorem broadcast_failure_isolation (r : Registry) (a : Action)
    (rec : NoteSnapshot) (fails : Nat → Bool) :
    (broadcast r a rec fails).isOk = true ∧
    ∀ out, broadcast r a rec fails = Except.ok out →
      (∀ c, c ∈ snapshot r →
        (c, encodeEvent { action := a, record := rec }) ∈ out.sent) ∧
      (∀ c, c ∈ snapshot r → fails c = true → c ∉ out.registry) ∧
      (∀ c, c ∈ snapshot r → fails c = false → c ∈ out.registry) := by
  refine ⟨rfl, fun out hout => ?_⟩
  have heq : Except.ok (ε := String)
      { sent := (snapshot r).map fun c =>
          (c, encodeEvent { action := a, record := rec })
        registry := ((snapshot r).filter fun c => fails c).foldl unregister r } =
      Except.ok out := hout
  obtain rfl := Except.ok.inj heq
  refine ⟨fun c hc => List.mem_map_of_mem _ hc, fun c hc hf => ?_, fun c hc hf => ?_⟩
  · rw [mem_foldl_unregister]
    rintro ⟨-, habs⟩
    exact habs (List.mem_filter.mpr ⟨hc, hf⟩)
  · rw [mem_foldl_unregister]
    refine ⟨hc, fun habs => ?_⟩
    have htrue := (List.mem_filter.mp habs).2
    rw [hf] at htrue
    exact Bool.false_ne_true htrue

/-- The broadcast outcome of the concrete C2 witness scenario: connections 1
and 2 registered, delivery to 1 fails. -/
def exOutcome : BroadcastOutcome :=
  { sent := [(1, encodeEvent { action := .create, record := exRec }),
             (2, encodeEvent { action := .create, record := exRec })],
    registry := [2] }

/-- C2 witness: both connections get a delivery attempt, the failed one is
evicted, the other stays, and the call reports success. -/
theorem broadcast_failure_isolation_witness :
    (broadcast [1, 2] .create exRec fun c => decide (c = 1)).isOk = true ∧
    (1, encodeEvent { action := .create, record := exRec }) ∈ exOutcome.sent ∧
    (2, encodeEvent { action := .create, record := exRec }) ∈ exOutcome.sent ∧
    1 ∉ exOutcome.registry ∧
    2 ∈ exOutcome.registry := by
  have h := broadcast_failure_isolation [1, 2] .create exRec fun c => decide (c = 1)
  have h2 := h.2 exOutcome rfl
  exact ⟨h.1, h2.1 1 (by simp [snapshot]), h2.1 2 (by simp [snapshot]),
         h2.2.1 1 (by simp [snapshot]) (by decide),
         h2.2.2 2 (by simp [snapshot]) (by decide)⟩

/-- C3: over every sequence of connect/disconnect operations interleaved
with broadcast calls, the registry never holds two entries with the same
connection identity, and once a connection's disconnect has completed it is
absent for the rest of any run that does not reconnect that identity. -/
theorem registry_no_duplicates_and_disconnect_is_final :
    (∀ ops : List Op, (runOps ops []).Nodup) ∧
    (∀ (pre post : List Op) (c : Nat), Op.connect c ∉ post →
      c ∉ runOps (pre ++ Op.disconnect c :: post) []) := by
  constructor
  · intro ops
    exact nodup_runOps ops [] List.nodup_nil
  · intro pre post c hpost
    have hsplit : runOps (pre ++ Op.disconnect c :: post) []
        = runOps post (runOps [Op.disconnect c] (runOps pre [])) := by
      rw [show pre ++ Op.disconnect c :: post = (pre ++ [Op.disconnect c]) ++ post by
            simp,
          runOps_append, runOps_append]
    rw [hsplit]
    refine not_mem_runOps post _ c ?_ hpost
    show c ∉ stepOp (runOps pre []) (Op.disconnect c)
    simp [stepOp, mem_unregister]

/-- C3 witness: a concrete run — connect 1, connect 2, disconnect 1 — ends
duplicate-free and without connection 1. -/
theorem registry_no_duplicates_and_disconnect_is_final_witness :
    (runOps [Op.connect 1, Op.connect 2, Op.disconnect 1] []).Nodup ∧
    1 ∉ runOps [Op.connect 1, Op.connect 2, Op.disconnect 1] [] := by
  refine ⟨registry_no_duplicates_and_disconnect_is_final.1 _, ?_⟩
  have h := registry_no_duplicates_and_disconnect_is_final.2
      [Op.connect 1, Op.connect 2] [] 1 (by simp)
  simpa using h

end Notes
